import Mathlib

/-!
Verification of the cargame engine (src/cargame.c, src/config.h).

The development is a shallow embedding: the global mutable state of the C
program is passed explicitly, machine integers are modelled as Int, wide
characters as Char, and the curses screen as a function from positions to
an optional character (none models a failed read-back).  Each definition
is annotated with the C function and line range it embeds.
-/

/-- The Direction enum (cargame.c line 42).  In C the enumerators are
LEFT = 0, RIGHT = 1, UP = 2, DOWN = 3; static zero-initialisation therefore
yields LEFT. -/
inductive Direction where
  | LEFT
  | RIGHT
  | UP
  | DOWN
  deriving DecidableEq, Repr

/-- The Pos struct (cargame.c lines 44-47): an integer coordinate pair. -/
structure Pos where
  x : Int
  y : Int
  deriving DecidableEq, Repr

/-- car_go_down (cargame.c lines 195-202).  borders is game.borders, lines is
the GAMEWIN_LINES macro value. -/
def car_go_down (borders : Bool) (lines : Int) (p : Pos) : Pos :=
  if borders = false then { p with y := if p.y + 1 = lines then 0 else p.y + 1 }
  else { p with y := p.y + 1 }

/-- car_go_left (cargame.c lines 204-211); the C test is on the truthiness of
car.pos.x. -/
def car_go_left (borders : Bool) (cols : Int) (p : Pos) : Pos :=
  if borders = false then { p with x := if p.x ≠ 0 then p.x - 1 else cols - 1 }
  else { p with x := p.x - 1 }

/-- car_go_right (cargame.c lines 213-220). -/
def car_go_right (borders : Bool) (cols : Int) (p : Pos) : Pos :=
  if borders = false then { p with x := if p.x + 1 = cols then 0 else p.x + 1 }
  else { p with x := p.x + 1 }

/-- car_go_up (cargame.c lines 222-229). -/
def car_go_up (borders : Bool) (lines : Int) (p : Pos) : Pos :=
  if borders = false then { p with y := if p.y ≠ 0 then p.y - 1 else lines - 1 }
  else { p with y := p.y - 1 }

/-- car_move (cargame.c lines 231-248): dispatch on the current direction. -/
def car_move (borders : Bool) (cols lines : Int) (d : Direction) (p : Pos) : Pos :=
  match d with
  | Direction.DOWN => car_go_down borders lines p
  | Direction.LEFT => car_go_left borders cols p
  | Direction.RIGHT => car_go_right borders cols p
  | Direction.UP => car_go_up borders lines p

/-- car_position_changed (cargame.c lines 250-254). -/
def car_position_changed (pos old_pos : Pos) : Bool :=
  pos.x != old_pos.x || pos.y != old_pos.y

/-- The Car struct (cargame.c lines 49-60); the cchar_t glyphs are modelled
as Char. -/
structure Car where
  car : Char
  left : Char
  right : Char
  up : Char
  down : Char
  start_direction : Direction
  direction : Direction
  pos : Pos
  start_pos : Pos
  old_pos : Pos
  deriving DecidableEq, Repr

/-- car_set_direction (cargame.c lines 264-281): select the glyph for a
direction. -/
def car_set_direction (d : Direction) (c : Car) : Car :=
  match d with
  | Direction.DOWN => { c with car := c.down }
  | Direction.LEFT => { c with car := c.left }
  | Direction.RIGHT => { c with car := c.right }
  | Direction.UP => { c with car := c.up }

/-- car_turn_left (cargame.c lines 283-301): rotate the direction
DOWN->RIGHT->UP->LEFT->DOWN and refresh the glyph. -/
def car_turn_left (c : Car) : Car :=
  let d :=
    match c.direction with
    | Direction.DOWN => Direction.RIGHT
    | Direction.LEFT => Direction.DOWN
    | Direction.RIGHT => Direction.UP
    | Direction.UP => Direction.LEFT
  car_set_direction d { c with direction := d }

/-- car_turn_right (cargame.c lines 303-321): the inverse rotation. -/
def car_turn_right (c : Car) : Car :=
  let d :=
    match c.direction with
    | Direction.DOWN => Direction.LEFT
    | Direction.LEFT => Direction.UP
    | Direction.RIGHT => Direction.DOWN
    | Direction.UP => Direction.RIGHT
  car_set_direction d { c with direction := d }

/-- car_reset (cargame.c lines 256-262). -/
def car_reset (c : Car) : Car :=
  car_set_direction c.start_direction
    { c with pos := c.start_pos, old_pos := c.start_pos, direction := c.start_direction }

/-- LONG_MAX on the 64-bit targets the program runs on. -/
def long_max : Int := 9223372036854775807

/-- speed_step_width (config.h line 85): acceleration step in nanoseconds. -/
def speed_step_width : Int := 10000000

/-- start_speed (config.h line 86): the initial interval in nanoseconds. -/
def start_speed : Int := 250000000

/-- struct timespec as used through struct itimerspec (cargame.c line 92). -/
structure TimeSpec where
  tv_sec : Int
  tv_nsec : Int
  deriving DecidableEq, Repr

/-- The itimerspec part of the Timer struct (cargame.c lines 90-94). -/
structure ITimerSpec where
  it_value : TimeSpec
  it_interval : TimeSpec
  deriving DecidableEq, Repr

/-- timer_set (cargame.c lines 986-994): store nanosec into both tv_nsec
fields; the tv_sec fields are left as they are.  The timer_settime call is an
external effect with no bearing on the stored state. -/
def timer_set (nanosec : Int) (its : ITimerSpec) : ITimerSpec :=
  { it_value := { its.it_value with tv_nsec := nanosec },
    it_interval := { its.it_interval with tv_nsec := nanosec } }

/-- timer_accelerate (cargame.c lines 943-966).  The final C assignment
it_interval = it_value is inlined into each branch that reaches it. -/
def timer_accelerate (its : ITimerSpec) : ITimerSpec :=
  if its.it_interval.tv_sec = 0 ∧ its.it_interval.tv_nsec = 0 then
    timer_set start_speed its
  else if its.it_value.tv_nsec ≥ speed_step_width then
    { it_value := { its.it_value with tv_nsec := its.it_value.tv_nsec - speed_step_width },
      it_interval := { its.it_value with tv_nsec := its.it_value.tv_nsec - speed_step_width } }
  else if its.it_value.tv_sec = 0 then
    its
  else
    { it_value := { tv_sec := its.it_value.tv_sec - 1,
                    tv_nsec := long_max - (speed_step_width - its.it_value.tv_nsec) },
      it_interval := { tv_sec := its.it_value.tv_sec - 1,
                       tv_nsec := long_max - (speed_step_width - its.it_value.tv_nsec) } }

/-- timer_slowdown (cargame.c lines 999-1018), same conventions. -/
def timer_slowdown (its : ITimerSpec) : ITimerSpec :=
  if its.it_interval.tv_sec = 0 ∧ its.it_interval.tv_nsec = 0 then
    its
  else if long_max - speed_step_width ≥ its.it_value.tv_nsec then
    { it_value := { its.it_value with tv_nsec := its.it_value.tv_nsec + speed_step_width },
      it_interval := { its.it_value with tv_nsec := its.it_value.tv_nsec + speed_step_width } }
  else
    { it_value := { tv_sec := its.it_value.tv_sec + 1,
                    tv_nsec := its.it_value.tv_nsec +
                      (speed_step_width - (long_max - its.it_value.tv_nsec)) },
      it_interval := { tv_sec := its.it_value.tv_sec + 1,
                       tv_nsec := its.it_value.tv_nsec +
                         (speed_step_width - (long_max - its.it_value.tv_nsec)) } }

/-- The timer state at process start: static zero-initialisation
(cargame.c lines 151-169). -/
def timer_zero : ITimerSpec :=
  { it_value := { tv_sec := 0, tv_nsec := 0 },
    it_interval := { tv_sec := 0, tv_nsec := 0 } }

/-- The armed timer at the configured initial interval: the state the first
accelerate produces from the uninitialized timer. -/
def timer_initial : ITimerSpec := timer_accelerate timer_zero

/-- n accelerate calls applied to the armed initial state. -/
def accel_iter (n : Nat) : ITimerSpec := timer_accelerate^[n] timer_initial

/-- Total nanoseconds represented by a timespec value. -/
def timespec_nanos (t : TimeSpec) : Int := t.tv_sec * 1000000000 + t.tv_nsec

/-- The branch taken by one evaluation of game_continue (cargame.c lines
502-530).  The Bool carried by the prompt branches is the value the nested
play-again prompt returns (true iff the player answers yes). -/
inductive ContinueResult where
  | winPrompt (again : Bool)
  | noMove
  | borderCrash (again : Bool)
  | readFail
  | obstacleCrash (again : Bool)
  | pass
  deriving DecidableEq, Repr

/-- game_continue (cargame.c lines 502-530) instrumented to report which
branch fired.  read_cell is the result of mvwinnwstr at the car position
(none models ERR), again_won and again_over are the answers game_won and
game_over would obtain from the player. -/
def game_continue_eval (pos old_pos goal_pos : Pos) (borders : Bool) (cols lines : Int)
    (read_cell : Option Char) (again_won again_over : Bool) : ContinueResult :=
  if pos.x = goal_pos.x ∧ pos.y = goal_pos.y then
    ContinueResult.winPrompt again_won
  else if car_position_changed pos old_pos = false then
    ContinueResult.noMove
  else if borders = true ∧ (pos.x < 0 ∨ pos.y < 0 ∨ pos.x = cols ∨ pos.y = lines) then
    ContinueResult.borderCrash again_over
  else
    match read_cell with
    | none => ContinueResult.readFail
    | some wch => if wch ≠ ' ' then ContinueResult.obstacleCrash again_over
                  else ContinueResult.pass

/-- The Bool game_continue returns for each branch: false only when the
player declines a prompt or the read-back failed. -/
def continue_result_to_bool : ContinueResult → Bool
  | ContinueResult.winPrompt again => again
  | ContinueResult.noMove => true
  | ContinueResult.borderCrash again => again
  | ContinueResult.readFail => false
  | ContinueResult.obstacleCrash again => again
  | ContinueResult.pass => true

/-- game_continue (cargame.c lines 502-530) as the Bool the C function
returns. -/
def game_continue (pos old_pos goal_pos : Pos) (borders : Bool) (cols lines : Int)
    (read_cell : Option Char) (again_won again_over : Bool) : Bool :=
  continue_result_to_bool
    (game_continue_eval pos old_pos goal_pos borders cols lines read_cell again_won again_over)

/-- The game-session state the r == ERR branch of game_loop reads: car and
goal coordinates, mode and playable dimensions, and the three pending flags
the signal handler may have set (cargame.c lines 71-94, 899-914). -/
structure GameState where
  car_pos : Pos
  car_old_pos : Pos
  car_direction : Direction
  goal_pos : Pos
  borders : Bool
  cols : Int
  lines : Int
  timer_finished : Bool
  need_resize : Bool
  need_terminate : Bool
  deriving DecidableEq, Repr

/-- The new car position a tick produces: car_move on the current state. -/
def car_new_pos (st : GameState) : Pos :=
  car_move st.borders st.cols st.lines st.car_direction st.car_pos

/-- What one r == ERR iteration of game_loop did (cargame.c lines 545-556):
tickHandled false is the `break` leaving the loop, terminateHandled is the
DIE(NULL) path. -/
inductive ErrStep where
  | tickHandled (continues : Bool)
  | resizeHandled
  | terminateHandled
  | noneHandled
  deriving DecidableEq, Repr

/-- The r == ERR branch of game_loop (cargame.c lines 545-556): the blocking
read woke without a real keystroke.  screen is the read-back of the display
surface at a position. -/
def game_loop_err_step (st : GameState) (screen : Pos → Option Char)
    (again_won again_over : Bool) : ErrStep :=
  if st.timer_finished = true then
    ErrStep.tickHandled
      (game_continue (car_new_pos st) st.car_old_pos st.goal_pos st.borders st.cols st.lines
        (screen (car_new_pos st)) again_won again_over)
  else if st.need_resize = true then
    ErrStep.resizeHandled
  else if st.need_terminate = true then
    ErrStep.terminateHandled
  else
    ErrStep.noneHandled

/-- chars.goal (config.h line 65). -/
def goal_char : Char := 'x'

/-- chars.car_down (config.h line 64). -/
def car_down_char : Char := '↓'

/-- chars.car_left (config.h line 61). -/
def car_left_char : Char := '←'

/-- chars.car_right (config.h line 62). -/
def car_right_char : Char := '→'

/-- chars.car_up (config.h line 63). -/
def car_up_char : Char := '↑'

/-- wcschr on a row: the index of the first occurrence of c, matching the
pointer arithmetic ptr - game.field[i] of level_init. -/
def wcschr : List Char → Char → Option Nat
  | [], _ => none
  | a :: l, c => if a = c then some 0 else (wcschr l c).map (fun j => j + 1)

/-- The start-marker search of level_init (cargame.c lines 758-765): the four
car glyphs are tried in the order down, left, right, up; the first hit fixes
the start direction and cell. -/
def find_start (row : List Char) : Option (Direction × Nat) :=
  match wcschr row car_down_char with
  | some j => some (Direction.DOWN, j)
  | none =>
    match wcschr row car_left_char with
    | some j => some (Direction.LEFT, j)
    | none =>
      match wcschr row car_right_char with
      | some j => some (Direction.RIGHT, j)
      | none =>
        match wcschr row car_up_char with
        | some j => some (Direction.UP, j)
        | none => none

/-- The fatal level errors of level_file_read and level_init (cargame.c lines
672-690, 737-782): a row whose display width is unmeasurable, a wrong goal or
start marker count (carrying the counted value of the DIE message), an empty
file, and the INT_MAX dimension ceilings of level_file_readlines. -/
inductive LevelError where
  | widthError
  | goalCount (count : Nat)
  | startCount (count : Nat)
  | emptyLevel
  | oversize
  deriving DecidableEq, Repr

/-- The locals of level_init together with the grid being updated in place
(cargame.c lines 740-743): marker counts, marker cell indices, the start
direction written into the car, and the running game.cols maximum. -/
structure ScanState where
  goal_count : Nat
  start_count : Nat
  goal_index : Pos
  car_start_index : Pos
  start_direction : Direction
  cols : Int
  field : List (List Char)
  deriving DecidableEq, Repr

/-- One iteration of the level_init row loop (cargame.c lines 745-771).
w models wcswidth on a whole row (none models the -1 failure). -/
def level_init_row (w : List Char → Option Int) (i : Nat) (st : ScanState)
    (row : List Char) : Except LevelError ScanState :=
  match w row with
  | none => Except.error LevelError.widthError
  | some len =>
    let st1 : ScanState := { st with cols := if len > st.cols then len else st.cols }
    match wcschr row goal_char with
    | some j =>
      Except.ok { st1 with goal_index := { x := (j : Int), y := (i : Int) },
                           goal_count := st1.goal_count + 1,
                           field := st1.field ++ [row] }
    | none =>
      match find_start row with
      | none => Except.ok { st1 with field := st1.field ++ [row] }
      | some (d, j) =>
        Except.ok { st1 with start_direction := d,
                             car_start_index := { x := (j : Int), y := (i : Int) },
                             start_count := st1.start_count + 1,
                             field := st1.field ++ [row.set j ' '] }

/-- The whole row loop of level_init, threading the row index i. -/
def level_init_scan (w : List Char → Option Int) :
    Nat → ScanState → List (List Char) → Except LevelError ScanState
  | _, st, [] => Except.ok st
  | i, st, row :: rest =>
    match level_init_row w i st row with
    | Except.error e => Except.error e
    | Except.ok st1 => level_init_scan w (i + 1) st1 rest

/-- The scan state on entry to level_init: counts zero, indices zero,
start_direction the zero-initialised LEFT, game.cols zero, no rows seen. -/
def scan_start : ScanState :=
  { goal_count := 0, start_count := 0,
    goal_index := { x := 0, y := 0 }, car_start_index := { x := 0, y := 0 },
    start_direction := Direction.LEFT, cols := 0, field := [] }

/-- What level_init returns on success: the marker cell indices, the start
direction, the column maximum and the grid with the start cell blanked. -/
structure LevelResult where
  goal_index : Pos
  car_start_index : Pos
  start_direction : Direction
  cols : Int
  field : List (List Char)
  deriving DecidableEq, Repr

/-- level_init (cargame.c lines 737-782): scan all rows, then fail unless
exactly one goal and exactly one start marker were counted; the count errors
carry the counted values the DIE messages print. -/
def level_init (w : List Char → Option Int) (grid : List (List Char)) :
    Except LevelError LevelResult :=
  match level_init_scan w 0 scan_start grid with
  | Except.error e => Except.error e
  | Except.ok st =>
    if st.goal_count ≠ 1 then Except.error (LevelError.goalCount st.goal_count)
    else if st.start_count ≠ 1 then Except.error (LevelError.startCount st.start_count)
    else Except.ok { goal_index := st.goal_index, car_start_index := st.car_start_index,
                     start_direction := st.start_direction, cols := st.cols,
                     field := st.field }

/-- INT_MAX, the dimension ceiling of level_file_readlines. -/
def int_max : Nat := 2147483647

/-- BUFSIZ of the C library on the glibc targets the program runs on. -/
def bufsiz : Nat := 8192

/-- The reading effect of fgetws(buf, n, in) with capacity k = n - 1 on the
decoded character stream: the chunk written into the buffer (at most k
characters, stopping after a newline) and the rest of the stream. -/
def fgetws_read : Nat → List Char → List Char × List Char
  | 0, s => ([], s)
  | _ + 1, [] => ([], [])
  | k + 1, a :: s =>
    if a = '\n' then ([a], s)
    else
      let p := fgetws_read k s
      (a :: p.1, p.2)

/-- level_file_readlines (cargame.c lines 692-728) on the decoded character
stream, the two nested loops flattened into one recursion.  refill = none is
the top of the outer for loop for row i with size = BUFSIZ: the i == INT_MAX
ceiling (line 699-700), then fgetws (line 705): NULL ends the file with no
row added (return i, line 708), a chunk containing a newline is truncated
there and becomes row i (lines 711-714), and a chunk without one enters the
refill do loop.  refill = some (size, prev) is that do loop (lines 716-725)
for row i after a chunk prev without a newline: size grows by BUFSIZ and is
checked against INT_MAX (lines 717-719), then fgetws re-reads INTO THE START
of the grown buffer (line 721), so prev is overwritten and only kept when
this read hits end-of-file (return i+1, line 722); a re-read chunk with a
newline is truncated there and becomes row i (lines 723-725).  Rows of
BUFSIZ-1 or more characters are therefore replaced by their final tail
chunk. -/
def level_file_readlines_go (i : Nat) (refill : Option (Nat × List Char)) (s : List Char) :
    Except LevelError (List (List Char)) :=
  match refill with
  | none =>
    if i = int_max then Except.error LevelError.oversize
    else
      match s with
      | [] => Except.ok []
      | a :: s0 =>
        let p := fgetws_read (bufsiz - 1) (a :: s0)
        match wcschr p.1 '\n' with
        | some j =>
          match level_file_readlines_go (i + 1) none p.2 with
          | Except.error e => Except.error e
          | Except.ok rows => Except.ok (p.1.take j :: rows)
        | none => level_file_readlines_go i (some (bufsiz, p.1)) p.2
  | some (size, prev) =>
    if size + bufsiz > int_max then Except.error LevelError.oversize
    else
      match s with
      | [] => Except.ok [prev]
      | a :: s0 =>
        let p := fgetws_read (size + bufsiz - 1) (a :: s0)
        match wcschr p.1 '\n' with
        | some j =>
          match level_file_readlines_go (i + 1) none p.2 with
          | Except.error e => Except.error e
          | Except.ok rows => Except.ok (p.1.take j :: rows)
        | none => level_file_readlines_go i (some (size + bufsiz, prev)) p.2
  termination_by s.length
  decreasing_by
    all_goals
      have hle : ∀ (k : Nat) (t : List Char), (fgetws_read k t).2.length ≤ t.length := by
        intro k
        induction k with
        | zero => intro t; simp [fgetws_read]
        | succ n ih =>
          intro t
          cases t with
          | nil => simp [fgetws_read]
          | cons b t0 =>
            by_cases hb : b = '\n'
            · simp [fgetws_read, hb]
            · simp only [fgetws_read, hb, if_false, List.length_cons]
              exact Nat.le_succ_of_le (ih t0)
    all_goals
      have hlt : ∀ (k0 : Nat) (b : Char) (t0 : List Char),
          (fgetws_read (k0 + 1) (b :: t0)).2.length < (b :: t0).length := by
        intro k0 b t0
        by_cases hb : b = '\n'
        · simp [fgetws_read, hb]
        · simp only [fgetws_read, hb, if_false, List.length_cons]
          exact Nat.lt_succ_of_le (hle k0 t0)
    · rw [show bufsiz - 1 = 8190 + 1 from rfl]
      exact hlt 8190 a s0
    · rw [show bufsiz - 1 = 8190 + 1 from rfl]
      exact hlt 8190 a s0
    · rw [show size + bufsiz - 1 = (size + bufsiz - 2) + 1 by
        have hb : bufsiz = 8192 := rfl
        omega]
      exact hlt (size + bufsiz - 2) a s0
    · rw [show size + bufsiz - 1 = (size + bufsiz - 2) + 1 by
        have hb : bufsiz = 8192 := rfl
        omega]
      exact hlt (size + bufsiz - 2) a s0

/-- level_file_readlines from its entry state: row 0, outer loop. -/
def level_file_readlines (s : List Char) : Except LevelError (List (List Char)) :=
  level_file_readlines_go 0 none s

/-- level_file_read (cargame.c lines 672-690) on the decoded character
stream of the opened file: read all lines, then die on a level file with no
lines.  fopen failure, ferror and decoding failures are external I/O effects
outside the stream model. -/
def level_file_read (s : List Char) : Except LevelError (List (List Char)) :=
  match level_file_readlines s with
  | Except.error e => Except.error e
  | Except.ok rows =>
    if rows.length = 0 then Except.error LevelError.emptyLevel
    else Except.ok rows

/-- The character stream of a level file whose lines are the given rows,
each terminated by a newline. -/
def encode_lines (rows : List (List Char)) : List Char :=
  rows.foldr (fun r acc => r ++ '\n' :: acc) []

/-- Does a row contain the goal marker, as level_init tests it. -/
def row_has_goal (row : List Char) : Bool := (wcschr row goal_char).isSome

/-- Does a row make level_init count a start marker: no goal marker in the
row (the goal branch ends with continue) and some car glyph present. -/
def row_counts_start (row : List Char) : Bool :=
  !(wcschr row goal_char).isSome && (find_start row).isSome

/-- The in-place mutation level_init applies to one row: rows with a goal
marker or without any car glyph are kept, otherwise the first car glyph found
is blanked. -/
def process_row (row : List Char) : List Char :=
  if (wcschr row goal_char).isSome then row
  else
    match find_start row with
    | none => row
    | some (_, j) => row.set j ' '

/-- Total number of occurrences of a character over a whole grid, the
occurrence count the spec speaks about. -/
def count_occurrences (c : Char) (grid : List (List Char)) : Nat :=
  (grid.map (fun r => r.count c)).sum

/-- Number of start-marker glyph occurrences in one row. -/
def start_occurrences_row (row : List Char) : Nat :=
  row.count car_down_char + row.count car_left_char +
    row.count car_right_char + row.count car_up_char

/-- Total number of start-marker glyph occurrences over a whole grid. -/
def start_occurrences (grid : List (List Char)) : Nat :=
  (grid.map start_occurrences_row).sum

/-- Claim C6: turning left then right, and right then left, restores the
original direction, and neither turn changes any component of the car other
than its direction and its displayed glyph; in particular the position is
unchanged. -/
theorem car_turn_roundtrip (c : Car) :
    (car_turn_right (car_turn_left c)).direction = c.direction ∧
    (car_turn_left (car_turn_right c)).direction = c.direction ∧
    (car_turn_left c).pos = c.pos ∧ (car_turn_right c).pos = c.pos ∧
    (car_turn_left c).old_pos = c.old_pos ∧ (car_turn_right c).old_pos = c.old_pos ∧
    (car_turn_left c).start_pos = c.start_pos ∧ (car_turn_right c).start_pos = c.start_pos ∧
    (car_turn_left c).start_direction = c.start_direction ∧
    (car_turn_right c).start_direction = c.start_direction := by
  rcases c with ⟨g, gl, gr, gu, gd, sd, d, p, sp, op⟩
  cases d <;>
    simp [car_turn_left, car_turn_right, car_set_direction]

/-- Claim C7: in wrap mode, advancing in Right-facing direction from the
rightmost column of the playable area yields column 0 on the same row, and
advancing in Left-facing direction from column 0 yields the rightmost
column, for every row. -/
theorem car_move_wrap_horizontal (cols lines y : Int) (h : 1 ≤ cols) :
    car_move false cols lines Direction.RIGHT { x := cols - 1, y := y } = { x := 0, y := y } ∧
    car_move false cols lines Direction.LEFT { x := 0, y := y } = { x := cols - 1, y := y } := by
  constructor
  · have hc : cols - 1 + 1 = cols := by omega
    simp [car_move, car_go_right, hc]
  · simp [car_move, car_go_left]

/-- Witness for car_move_wrap_horizontal at a playable area 5 columns wide. -/
theorem car_move_wrap_horizontal_witness :
    car_move false 5 4 Direction.RIGHT { x := 5 - 1, y := 2 } = { x := 0, y := 2 } ∧
    car_move false 5 4 Direction.LEFT { x := 0, y := 2 } = { x := 5 - 1, y := 2 } :=
  car_move_wrap_horizontal 5 4 2 (by decide)

/-- Claim C10: in bordered mode every advance changes exactly one coordinate
of the position by exactly one (the facing axis), so the new position always
differs from the pre-move position; the position-unchanged branch of
game_continue is reachable in wrap mode, where a playable area of dimension
one wraps an advance back onto the same cell. -/
theorem car_move_bordered_changes :
    (∀ (p : Pos) (d : Direction) (cols lines : Int),
      ((car_move true cols lines d p).x = p.x ∧
        ((car_move true cols lines d p).y = p.y + 1 ∨
          (car_move true cols lines d p).y = p.y - 1)) ∨
      ((car_move true cols lines d p).y = p.y ∧
        ((car_move true cols lines d p).x = p.x + 1 ∨
          (car_move true cols lines d p).x = p.x - 1))) ∧
    (∀ (p : Pos) (d : Direction) (cols lines : Int),
      car_position_changed (car_move true cols lines d p) p = true) ∧
    (∀ y : Int,
      car_move false 1 1 Direction.RIGHT { x := 0, y := y } = { x := 0, y := y } ∧
      car_position_changed { x := 0, y := y } { x := 0, y := y } = false) := by
  refine ⟨?_, ?_, ?_⟩
  · intro p d cols lines
    cases d <;>
      simp [car_move, car_go_down, car_go_left, car_go_right, car_go_up]
  · intro p d cols lines
    cases d <;>
      simp [car_move, car_go_down, car_go_left, car_go_right, car_go_up,
        car_position_changed, bne_iff_ne] <;>
      omega
  · intro y
    constructor
    · simp [car_move, car_go_right]
    · simp [car_position_changed]

/-- Claim C5: assuming the maintained equality it_interval = it_value,
slowdown on an armed timer (nonzero interval) strictly increases the
interval, and slowdown on a disabled timer (zero interval) is the
identity. -/
theorem timer_slowdown_spec (its : ITimerSpec)
    (hinv : its.it_interval = its.it_value) :
    (¬ (its.it_interval.tv_sec = 0 ∧ its.it_interval.tv_nsec = 0) →
      timespec_nanos its.it_interval < timespec_nanos (timer_slowdown its).it_interval) ∧
    ((its.it_interval.tv_sec = 0 ∧ its.it_interval.tv_nsec = 0) →
      timer_slowdown its = its) := by
  constructor
  · intro harm
    unfold timer_slowdown
    rw [hinv] at harm ⊢
    rw [if_neg harm]
    by_cases h2 : long_max - speed_step_width ≥ its.it_value.tv_nsec
    · rw [if_pos h2]
      simp only [timespec_nanos, speed_step_width] at *
      omega
    · rw [if_neg h2]
      simp only [timespec_nanos, speed_step_width, long_max] at *
      omega
  · intro hdis
    unfold timer_slowdown
    rw [if_pos hdis]

/-- Witness for timer_slowdown_spec at the armed initial interval. -/
theorem timer_slowdown_spec_witness :
    timespec_nanos timer_initial.it_interval <
      timespec_nanos (timer_slowdown timer_initial).it_interval :=
  (timer_slowdown_spec timer_initial (by decide)).1 (by decide)

/-- One full accelerate cycle: 26 calls from the armed initial interval
return to the armed initial interval. -/
theorem accel_iter_period (n : Nat) : accel_iter (n + 26) = accel_iter n := by
  have h26 : timer_accelerate^[26] timer_initial = timer_initial := by decide
  unfold accel_iter
  rw [Function.iterate_add_apply, h26]

/-- The accelerate orbit only depends on the call count modulo 26. -/
theorem accel_iter_mod (n : Nat) : accel_iter n = accel_iter (n % 26) := by
  induction n using Nat.strong_induction_on with
  | _ n ih =>
    by_cases h : n < 26
    · rw [Nat.mod_eq_of_lt h]
    · have h2 : n - 26 + 26 = n := by omega
      have h3 := accel_iter_period (n - 26)
      rw [h2] at h3
      rw [h3, ih (n - 26) (by omega)]
      congr 1
      omega

/-- No state in the accelerate orbit is a fixed point of accelerate. -/
theorem accel_iter_no_fixpoint (n : Nat) :
    timer_accelerate (accel_iter n) ≠ accel_iter n := by
  rw [accel_iter_mod n]
  have h : ∀ r < 26, timer_accelerate (accel_iter r) ≠ accel_iter r := by decide
  exact h (n % 26) (Nat.mod_lt n (by omega))

/-- Claim C4 counterexample: starting from the armed initial interval, no
number of accelerate calls reaches a state that a further accelerate leaves
unchanged — after 25 calls the interval is zero and the 26th call re-arms
the timer to the initial interval — so accelerate never becomes idempotent. -/
theorem accel_no_idempotent_floor :
    ¬ ∃ n : Nat, timer_accelerate (accel_iter n) = accel_iter n := by
  rintro ⟨n, h⟩
  exact accel_iter_no_fixpoint n h

/-- Claim C4 (amended): starting from the armed timer's configured initial
interval, repeated accelerate decreases the interval by the fixed step each
call, the interval fields never go below zero, the interval reaches zero
(the disabled timer state) after 25 calls, and the next call re-arms the
timer to the initial interval, so no call leaves the state unchanged. -/
theorem accel_iter_spec :
    (∀ n : Nat,
      0 ≤ (accel_iter n).it_interval.tv_sec ∧ 0 ≤ (accel_iter n).it_interval.tv_nsec ∧
      0 ≤ (accel_iter n).it_value.tv_sec ∧ 0 ≤ (accel_iter n).it_value.tv_nsec) ∧
    accel_iter 25 = timer_zero ∧
    timer_accelerate (accel_iter 25) = timer_initial ∧
    (∀ n : Nat, timer_accelerate (accel_iter n) ≠ accel_iter n) := by
  refine ⟨?_, by decide, by decide, accel_iter_no_fixpoint⟩
  intro n
  rw [accel_iter_mod n]
  have h : ∀ r < 26,
      0 ≤ (accel_iter r).it_interval.tv_sec ∧ 0 ≤ (accel_iter r).it_interval.tv_nsec ∧
      0 ≤ (accel_iter r).it_value.tv_sec ∧ 0 ≤ (accel_iter r).it_value.tv_nsec := by decide
  exact h (n % 26) (Nat.mod_lt n (by omega))

/-- Claim C3: whenever the car's new position equals the goal position, the
win-prompt branch of game_continue fires, whatever the mode, the playable
dimensions, the previous position and the cell read-back — in particular
before the position-unchanged, border and obstacle checks. -/
theorem goal_before_crash_checks (pos old_pos goal_pos : Pos) (borders : Bool)
    (cols lines : Int) (read_cell : Option Char) (again_won again_over : Bool)
    (hgoal : pos.x = goal_pos.x ∧ pos.y = goal_pos.y) :
    game_continue_eval pos old_pos goal_pos borders cols lines read_cell again_won again_over
      = ContinueResult.winPrompt again_won := by
  unfold game_continue_eval
  rw [if_pos hgoal]

/-- Witness for goal_before_crash_checks with the goal on the playable
boundary of a bordered 5x5 area and a failing read-back. -/
theorem goal_before_crash_checks_witness :
    game_continue_eval { x := 4, y := 0 } { x := 3, y := 0 } { x := 4, y := 0 }
      true 5 5 none true true = ContinueResult.winPrompt true :=
  goal_before_crash_checks { x := 4, y := 0 } { x := 3, y := 0 } { x := 4, y := 0 }
    true 5 5 none true true (by decide)

/-- A game state with a tick pending: car mid-field in a bordered 10x8 area,
heading right, goal elsewhere, all three pending flags raised. -/
def flags_state : GameState :=
  { car_pos := { x := 2, y := 2 }, car_old_pos := { x := 2, y := 2 },
    car_direction := Direction.RIGHT, goal_pos := { x := 7, y := 3 },
    borders := true, cols := 10, lines := 8,
    timer_finished := true, need_resize := true, need_terminate := true }

/-- Claim C1 counterexample: with the car mid-field, a tick pending and the
read-back of the new cell failing, game_continue takes the read-failure
branch and returns false, so the game loop breaks out instead of continuing
to its next iteration. -/
theorem game_readfail_terminates_cex :
    game_continue_eval { x := 3, y := 2 } { x := 2, y := 2 } { x := 7, y := 3 }
        true 10 8 none true true = ContinueResult.readFail ∧
    game_loop_err_step { flags_state with need_resize := false, need_terminate := false }
        (fun _ => none) true true = ErrStep.tickHandled false := by
  constructor
  · rfl
  · rfl

/-- Claim C1 (amended): in every tick-advance evaluation in which the car's
new position is not the goal, has changed, and does not meet the bordered
out-of-area condition, a failed read-back of the display cell at the new
position makes game_continue return false, so the game loop terminates as if
the quit key had been pressed — no crash prompt is raised, but the loop does
not continue either. -/
theorem game_readfail_quits (st : GameState) (screen : Pos → Option Char)
    (again_won again_over : Bool)
    (htick : st.timer_finished = true)
    (hgoal : ¬ ((car_new_pos st).x = st.goal_pos.x ∧ (car_new_pos st).y = st.goal_pos.y))
    (hmoved : car_position_changed (car_new_pos st) st.car_old_pos = true)
    (hborder : ¬ (st.borders = true ∧ ((car_new_pos st).x < 0 ∨ (car_new_pos st).y < 0 ∨
      (car_new_pos st).x = st.cols ∨ (car_new_pos st).y = st.lines)))
    (hread : screen (car_new_pos st) = none) :
    game_continue_eval (car_new_pos st) st.car_old_pos st.goal_pos st.borders st.cols st.lines
        (screen (car_new_pos st)) again_won again_over = ContinueResult.readFail ∧
    game_loop_err_step st screen again_won again_over = ErrStep.tickHandled false := by
  have heval : game_continue_eval (car_new_pos st) st.car_old_pos st.goal_pos st.borders
      st.cols st.lines (screen (car_new_pos st)) again_won again_over
      = ContinueResult.readFail := by
    unfold game_continue_eval
    rw [if_neg hgoal, if_neg (by simp [hmoved]), if_neg hborder, hread]
  refine ⟨heval, ?_⟩
  unfold game_loop_err_step
  rw [if_pos htick]
  unfold game_continue
  rw [heval]
  rfl

/-- Witness for game_readfail_quits at the concrete mid-field state. -/
theorem game_readfail_quits_witness :
    game_continue_eval
        (car_new_pos { flags_state with need_resize := false, need_terminate := false })
        { x := 2, y := 2 } { x := 7, y := 3 } true 10 8 none true true
      = ContinueResult.readFail ∧
    game_loop_err_step { flags_state with need_resize := false, need_terminate := false }
        (fun _ => none) true true = ErrStep.tickHandled false :=
  game_readfail_quits { flags_state with need_resize := false, need_terminate := false }
    (fun _ => none) true true rfl (by decide) (by decide) (by decide) rfl

/-- Claim C2 counterexample: with all three pending flags set and a benign
tick (blank cell under the new position), the iteration handles the tick,
not the resize request, so the resize request is not the first flag
inspected. -/
theorem flag_priority_cex :
    flags_state.need_resize = true ∧
    game_loop_err_step flags_state (fun _ => some ' ') true true
      = ErrStep.tickHandled true ∧
    game_loop_err_step flags_state (fun _ => some ' ') true true
      ≠ ErrStep.resizeHandled := by
  refine ⟨rfl, rfl, by decide⟩

/-- Claim C2 (amended): on a wake without a real keystroke the pending flags
are inspected in the priority order tick-fired first, then resize request,
then termination request, and at most the first flag found set is handled in
that iteration. -/
theorem flag_priority (st : GameState) (screen : Pos → Option Char)
    (again_won again_over : Bool) :
    ((∃ b, game_loop_err_step st screen again_won again_over = ErrStep.tickHandled b) ↔
      st.timer_finished = true) ∧
    (game_loop_err_step st screen again_won again_over = ErrStep.resizeHandled ↔
      (st.timer_finished = false ∧ st.need_resize = true)) ∧
    (game_loop_err_step st screen again_won again_over = ErrStep.terminateHandled ↔
      (st.timer_finished = false ∧ st.need_resize = false ∧ st.need_terminate = true)) ∧
    (game_loop_err_step st screen again_won again_over = ErrStep.noneHandled ↔
      (st.timer_finished = false ∧ st.need_resize = false ∧ st.need_terminate = false)) := by
  rcases h1 : st.timer_finished <;> rcases h2 : st.need_resize <;>
    rcases h3 : st.need_terminate <;>
    simp [game_loop_err_step, h1, h2, h3]

/-- wcschr finds nothing exactly when the character does not occur. -/
theorem wcschr_none_iff (c : Char) (l : List Char) :
    wcschr l c = none ↔ l.count c = 0 := by
  induction l with
  | nil => simp [wcschr]
  | cons a l ih =>
    by_cases h : a = c
    · subst h
      simp [wcschr, List.count_cons]
    · simp [wcschr, h, List.count_cons, ih]

/-- A successful wcschr splits the row at the first occurrence. -/
theorem wcschr_some_decomp (c : Char) (l : List Char) (j : Nat)
    (h : wcschr l c = some j) :
    ∃ l1 l2, l = l1 ++ c :: l2 ∧ l1.length = j ∧ l1.count c = 0 := by
  induction l generalizing j with
  | nil => simp [wcschr] at h
  | cons a l ih =>
    by_cases hac : a = c
    · subst hac
      simp [wcschr] at h
      exact ⟨[], l, by simp, by simp [h], by simp⟩
    · simp [wcschr, hac] at h
      obtain ⟨j0, hj0, hj⟩ := h
      obtain ⟨l1, l2, he, hlen, hcnt⟩ := ih j0 hj0
      refine ⟨a :: l1, l2, by simp [he], by simp [hlen, hj], ?_⟩
      simp [List.count_cons, hcnt, hac]

/-- Setting the element just after a prefix replaces the head of the rest. -/
theorem set_len_append (x a : Char) (l1 l2 : List Char) :
    (l1 ++ a :: l2).set l1.length x = l1 ++ x :: l2 := by
  induction l1 with
  | nil => rfl
  | cons b l1 ih => simp [List.set, ih]

/-- find_start fails exactly when all four car glyphs are absent. -/
theorem find_start_eq_none_iff (row : List Char) :
    find_start row = none ↔
      (wcschr row car_down_char = none ∧ wcschr row car_left_char = none ∧
        wcschr row car_right_char = none ∧ wcschr row car_up_char = none) := by
  cases h1 : wcschr row car_down_char <;>
    cases h2 : wcschr row car_left_char <;>
    cases h3 : wcschr row car_right_char <;>
    cases h4 : wcschr row car_up_char <;>
    simp [find_start, h1, h2, h3, h4]

/-- find_start fails exactly when the row holds no start-marker glyph. -/
theorem find_start_none_iff (row : List Char) :
    find_start row = none ↔ start_occurrences_row row = 0 := by
  rw [find_start_eq_none_iff, wcschr_none_iff, wcschr_none_iff, wcschr_none_iff,
    wcschr_none_iff]
  unfold start_occurrences_row
  omega

/-- A successful find_start comes from a successful wcschr on one of the four
car glyphs, at the same index. -/
theorem find_start_cases (row : List Char) (d : Direction) (j : Nat)
    (hfs : find_start row = some (d, j)) :
    wcschr row car_down_char = some j ∨ wcschr row car_left_char = some j ∨
      wcschr row car_right_char = some j ∨ wcschr row car_up_char = some j := by
  unfold find_start at hfs
  cases h1 : wcschr row car_down_char with
  | some j1 =>
    rw [h1] at hfs
    simp at hfs
    exact Or.inl (by rw [hfs.2])
  | none =>
    rw [h1] at hfs
    cases h2 : wcschr row car_left_char with
    | some j2 =>
      rw [h2] at hfs
      simp at hfs
      exact Or.inr (Or.inl (by rw [hfs.2]))
    | none =>
      rw [h2] at hfs
      cases h3 : wcschr row car_right_char with
      | some j3 =>
        rw [h3] at hfs
        simp at hfs
        exact Or.inr (Or.inr (Or.inl (by rw [hfs.2])))
      | none =>
        rw [h3] at hfs
        cases h4 : wcschr row car_up_char with
        | some j4 =>
          rw [h4] at hfs
          simp at hfs
          exact Or.inr (Or.inr (Or.inr (by rw [hfs.2])))
        | none =>
          rw [h4] at hfs
          simp at hfs

/-- Blanking the cell found by wcschr for one of the car glyphs removes one
start-marker occurrence. -/
theorem start_occ_set_first (row : List Char) (c : Char) (j : Nat)
    (hc : c = car_down_char ∨ c = car_left_char ∨ c = car_right_char ∨ c = car_up_char)
    (hw : wcschr row c = some j) :
    start_occurrences_row (row.set j ' ') = start_occurrences_row row - 1 := by
  obtain ⟨l1, l2, he, hlen, hcnt⟩ := wcschr_some_decomp c row j hw
  subst he
  rw [← hlen, set_len_append]
  unfold start_occurrences_row
  rcases hc with h | h | h | h <;> subst h <;>
    simp [List.count_append, List.count_cons, car_down_char, car_left_char,
      car_right_char, car_up_char] <;>
    omega

/-- Blanking the found start cell of a row holding exactly one start-marker
glyph leaves a row with none. -/
theorem start_row_blank (row : List Char) (d : Direction) (j : Nat)
    (hocc : start_occurrences_row row = 1) (hfs : find_start row = some (d, j)) :
    start_occurrences_row (row.set j ' ') = 0 := by
  rcases find_start_cases row d j hfs with h | h | h | h
  · rw [start_occ_set_first row car_down_char j (Or.inl rfl) h, hocc]
  · rw [start_occ_set_first row car_left_char j (Or.inr (Or.inl rfl)) h, hocc]
  · rw [start_occ_set_first row car_right_char j (Or.inr (Or.inr (Or.inl rfl))) h, hocc]
  · rw [start_occ_set_first row car_up_char j (Or.inr (Or.inr (Or.inr rfl))) h, hocc]

/-- Rows without any start-marker glyph are untouched by process_row;
with the goal marker present the row is also untouched. -/
theorem process_row_occ_zero (r : List Char) (h : start_occurrences_row r = 0) :
    start_occurrences_row (process_row r) = 0 := by
  unfold process_row
  by_cases hg : (wcschr r goal_char).isSome
  · rw [if_pos hg]
    exact h
  · rw [if_neg hg, (find_start_none_iff r).mpr h]
    exact h

/-- A list of naturals whose sum over f is one splits at the unique element
with f-value one; every other element has f-value zero. -/
theorem sum_map_eq_one_decomp {α : Type} (f : α → Nat) (l : List α)
    (h : (l.map f).sum = 1) :
    ∃ l1 a l2, l = l1 ++ a :: l2 ∧ f a = 1 ∧
      (∀ b ∈ l1, f b = 0) ∧ (∀ b ∈ l2, f b = 0) := by
  induction l with
  | nil => simp at h
  | cons a l ih =>
    simp only [List.map_cons, List.sum_cons] at h
    rcases Nat.eq_zero_or_pos (f a) with h0 | hpos
    · rw [h0] at h
      simp only [Nat.zero_add] at h
      obtain ⟨l1, b, l2, he, hb, h1, h2⟩ := ih h
      refine ⟨a :: l1, b, l2, by simp [he], hb, ?_, h2⟩
      intro x hx
      rcases List.mem_cons.mp hx with hx1 | hx2
      · rw [hx1]; exact h0
      · exact h1 x hx2
    · have hfa : f a = 1 := by omega
      have hsum : (l.map f).sum = 0 := by omega
      refine ⟨[], a, l, by simp, hfa, by simp, ?_⟩
      intro b hb
      have hmem : f b ∈ l.map f := List.mem_map_of_mem f hb
      exact List.sum_eq_zero_iff.mp hsum (f b) hmem

/-- The row loop of level_init never fails when every row width is
measurable, and its final counts and grid are: the entry counts plus the
number of goal-marker rows, plus the number of rows counted as start rows,
and the entry grid followed by the processed rows. -/
theorem level_init_scan_ok (w : List Char → Option Int) (rows : List (List Char)) :
    ∀ (i : Nat) (st : ScanState), (∀ r ∈ rows, (w r).isSome = true) →
      ∃ st2, level_init_scan w i st rows = Except.ok st2 ∧
        st2.goal_count = st.goal_count + rows.countP row_has_goal ∧
        st2.start_count = st.start_count + rows.countP row_counts_start ∧
        st2.field = st.field ++ rows.map process_row := by
  induction rows with
  | nil =>
    intro i st hw
    exact ⟨st, rfl, by simp, by simp, by simp⟩
  | cons row rest ih =>
    intro i st hw
    obtain ⟨len, hlen⟩ : ∃ len, w row = some len := by
      have his := hw row (by simp)
      rcases hwr : w row with _ | len
      · rw [hwr] at his; simp at his
      · exact ⟨len, rfl⟩
    have hwrest : ∀ r ∈ rest, (w r).isSome = true := fun r hr => hw r (by simp [hr])
    cases hg : wcschr row goal_char with
    | some j =>
      obtain ⟨st2, hs, h1, h2, h3⟩ := ih (i + 1) _ hwrest
      refine ⟨st2, ?_, ?_, ?_, ?_⟩
      · simp only [level_init_scan, level_init_row, hlen, hg]
        exact hs
      · rw [h1]
        simp [List.countP_cons, row_has_goal, row_counts_start, hg]
        omega
      · rw [h2]
        simp [List.countP_cons, row_has_goal, row_counts_start, hg]
      · rw [h3]
        simp [process_row, hg, List.append_assoc]
    | none =>
      cases hfs : find_start row with
      | none =>
        obtain ⟨st2, hs, h1, h2, h3⟩ := ih (i + 1) _ hwrest
        refine ⟨st2, ?_, ?_, ?_, ?_⟩
        · simp only [level_init_scan, level_init_row, hlen, hg, hfs]
          exact hs
        · rw [h1]
          simp [List.countP_cons, row_has_goal, hg]
        · rw [h2]
          simp [List.countP_cons, row_counts_start, hg, hfs]
        · rw [h3]
          simp [process_row, hg, hfs, List.append_assoc]
      | some dj =>
        obtain ⟨st2, hs, h1, h2, h3⟩ := ih (i + 1) _ hwrest
        refine ⟨st2, ?_, ?_, ?_, ?_⟩
        · simp only [level_init_scan, level_init_row, hlen, hg, hfs]
          exact hs
        · rw [h1]
          simp [List.countP_cons, row_has_goal, hg]
        · rw [h2]
          simp [List.countP_cons, row_counts_start, hg, hfs]
          omega
        · rw [h3]
          rcases dj with ⟨d, j⟩
          simp [process_row, hg, hfs, List.append_assoc]

/-- level_init after a successful scan is the marker-count check on the
final counts. -/
theorem level_init_eq_of_scan (w : List Char → Option Int) (grid : List (List Char))
    (st2 : ScanState) (hs : level_init_scan w 0 scan_start grid = Except.ok st2) :
    level_init w grid =
      (if st2.goal_count ≠ 1 then Except.error (LevelError.goalCount st2.goal_count)
       else if st2.start_count ≠ 1 then Except.error (LevelError.startCount st2.start_count)
       else Except.ok { goal_index := st2.goal_index, car_start_index := st2.car_start_index,
                        start_direction := st2.start_direction, cols := st2.cols,
                        field := st2.field }) := by
  unfold level_init
  rw [hs]

/-- Is a level_init result a success. -/
def except_is_ok {e a : Type} : Except e a → Bool
  | Except.ok _ => true
  | Except.error _ => false

/-- Claim C8 counterexample: a grid with two goal markers in the same row
passes the marker check — level_init counts rows, not occurrences — so a
grid with two-or-more goal markers need not fail. -/
theorem marker_count_occurrences_cex :
    count_occurrences goal_char [[ 'x', 'x'], [ '→']] = 2 ∧
    except_is_ok (level_init (fun r => some (r.length : Int)) [[ 'x', 'x'], [ '→']]) = true := by
  constructor
  · decide
  · decide

/-- Claim C8 (amended): the scan counts marker rows, not marker occurrences.
Whenever every row width is measurable, if the number of rows containing a
goal marker differs from one, level_init fails with the goal count error and
the reported count is that row count; if exactly one row contains a goal
marker but the number of rows counted as start rows (rows without a goal
marker whose first car glyph is found) differs from one, it fails with the
start count error and the reported count is that row count. -/
theorem level_init_marker_count_errors (w : List Char → Option Int)
    (grid : List (List Char)) (hw : ∀ r ∈ grid, (w r).isSome = true) :
    (grid.countP row_has_goal ≠ 1 →
      level_init w grid = Except.error (LevelError.goalCount (grid.countP row_has_goal))) ∧
    (grid.countP row_has_goal = 1 → grid.countP row_counts_start ≠ 1 →
      level_init w grid = Except.error (LevelError.startCount (grid.countP row_counts_start))) := by
  obtain ⟨st2, hs, h1, h2, h3⟩ := level_init_scan_ok w grid 0 scan_start hw
  have hg : st2.goal_count = grid.countP row_has_goal := by
    rw [h1]; simp [scan_start]
  have hst : st2.start_count = grid.countP row_counts_start := by
    rw [h2]; simp [scan_start]
  rw [level_init_eq_of_scan w grid st2 hs]
  constructor
  · intro hne
    rw [if_pos (by rw [hg]; exact hne), hg]
  · intro heq hne
    rw [if_neg (by rw [hg, heq]; simp), if_pos (by rw [hst]; exact hne), hst]

/-- Witness for level_init_marker_count_errors: two rows each containing one
goal marker yield the goal count error with count two. -/
theorem level_init_marker_count_errors_witness :
    level_init (fun r => some (r.length : Int)) [[ 'x'], [ 'x']]
      = Except.error (LevelError.goalCount ([[ 'x'], [ 'x']].countP row_has_goal)) :=
  (level_init_marker_count_errors (fun r => some (r.length : Int))
    [[ 'x'], [ 'x']] (by decide)).1 (by decide)

/-- A chunk read for a newline-terminated line that fits within the
capacity: everything through the newline is read and the stream moves past
it. -/
theorem fgetws_read_line (r : List Char) : ∀ (k : Nat) (t : List Char), '\n' ∉ r →
    r.length + 1 ≤ k → fgetws_read k (r ++ '\n' :: t) = (r ++ [ '\n'], t) := by
  induction r with
  | nil =>
    intro k t _ hk
    obtain ⟨k0, rfl⟩ : ∃ k0, k = k0 + 1 := ⟨k - 1, by omega⟩
    simp [fgetws_read]
  | cons a r0 ih =>
    intro k t hnl hk
    obtain ⟨k0, rfl⟩ : ∃ k0, k = k0 + 1 := ⟨k - 1, by omega⟩
    have ha : a ≠ '\n' := fun he => hnl (by simp [he])
    have hnl0 : '\n' ∉ r0 := fun hm => hnl (List.mem_cons_of_mem a hm)
    have hk0 : r0.length + 1 ≤ k0 := by
      simp only [List.length_cons] at hk
      omega
    simp [fgetws_read, ha, ih k0 t hnl0 hk0]

/-- A chunk read at exactly full capacity with no newline: the whole prefix
is read and nothing more. -/
theorem fgetws_read_full (r : List Char) : ∀ (t : List Char), '\n' ∉ r →
    fgetws_read r.length (r ++ t) = (r, t) := by
  induction r with
  | nil => intro t _; simp [fgetws_read]
  | cons a r0 ih =>
    intro t hnl
    have ha : a ≠ '\n' := fun he => hnl (by simp [he])
    have hnl0 : '\n' ∉ r0 := fun hm => hnl (List.mem_cons_of_mem a hm)
    simp [fgetws_read, ha, ih t hnl0]

/-- wcschr finds an appended character right after a prefix free of it. -/
theorem wcschr_append_self (c : Char) (r : List Char) (h : c ∉ r) :
    wcschr (r ++ [c]) c = some r.length := by
  induction r with
  | nil => simp [wcschr]
  | cons a r0 ih =>
    have ha : a ≠ c := fun he => h (by simp [he])
    have h0 : c ∉ r0 := fun hm => h (List.mem_cons_of_mem a hm)
    simp [wcschr, ha, ih h0]

set_option maxHeartbeats 1600000 in
/-- One outer iteration of level_file_readlines on a newline-terminated line
that fits in the first read buffer: the line becomes the next row. -/
theorem readlines_go_step (i : Nat) (r t : List Char) (hfit : r.length + 2 ≤ bufsiz)
    (hnl : '\n' ∉ r) (hi : i ≠ int_max) :
    level_file_readlines_go i none (r ++ '\n' :: t) =
      (match level_file_readlines_go (i + 1) none t with
       | Except.error e => Except.error e
       | Except.ok rows => Except.ok (r :: rows)) := by
  have hb : bufsiz = 8192 := rfl
  have hf : fgetws_read (bufsiz - 1) (r ++ '\n' :: t) = (r ++ [ '\n'], t) :=
    fgetws_read_line r (bufsiz - 1) t hnl (by omega)
  have hwc : wcschr (r ++ [ '\n']) '\n' = some r.length := wcschr_append_self '\n' r hnl
  have htake : (r ++ [ '\n']).take r.length = r := List.take_left r [ '\n']
  obtain ⟨a, s0, hs⟩ : ∃ a s0, r ++ '\n' :: t = a :: s0 := by
    cases r with
    | nil => exact ⟨'\n', t, rfl⟩
    | cons a r0 => exact ⟨a, r0 ++ '\n' :: t, rfl⟩
  rw [hs] at hf ⊢
  rw [level_file_readlines_go.eq_def]
  dsimp only
  rw [if_neg hi]
  rw [hf]
  dsimp only
  rw [hwc]
  dsimp only
  rw [htake]

/-- level_file_readlines on the encoding of newline-free rows each fitting in
the first read buffer returns exactly those rows, for any starting row index
below the ceiling. -/
theorem level_file_readlines_go_encode (rows : List (List Char)) :
    ∀ i : Nat, (∀ r ∈ rows, r.length + 2 ≤ bufsiz) → (∀ r ∈ rows, '\n' ∉ r) →
      i + rows.length < int_max →
      level_file_readlines_go i none (encode_lines rows) = Except.ok rows := by
  induction rows with
  | nil =>
    intro i _ _ hi
    have hi2 : i ≠ int_max := by omega
    simp only [encode_lines, List.foldr_nil]
    rw [level_file_readlines_go.eq_def]
    dsimp only
    rw [if_neg hi2]
  | cons r rows ih =>
    intro i hfit hnl hi
    have henc : encode_lines (r :: rows) = r ++ '\n' :: encode_lines rows := by
      simp [encode_lines]
    have hi2 : i + 1 + rows.length < int_max := by
      simp only [List.length_cons] at hi
      omega
    rw [henc, readlines_go_step i r (encode_lines rows) (hfit r (by simp))
      (hnl r (by simp)) (by simp only [List.length_cons] at hi; omega)]
    rw [ih (i + 1) (fun x hx => hfit x (by simp [hx])) (fun x hx => hnl x (by simp [hx])) hi2]

/-- level_file_read on the encoding of a nonempty list of short newline-free
rows returns exactly those rows. -/
theorem level_file_read_encode (rows : List (List Char))
    (hfit : ∀ r ∈ rows, r.length + 2 ≤ bufsiz) (hnl : ∀ r ∈ rows, '\n' ∉ r)
    (hcount : rows.length < int_max) (hne : rows ≠ []) :
    level_file_read (encode_lines rows) = Except.ok rows := by
  unfold level_file_read level_file_readlines
  rw [level_file_readlines_go_encode rows 0 hfit hnl (by omega)]
  simp [List.length_eq_zero, hne]

/-- The refill overwrite of level_file_readlines: a single newline-terminated
line of exactly BUFSIZ-1 characters is clobbered down to the empty row,
because the re-read of the grown buffer writes over the chunk already read
(cargame.c line 721); rows this long are not loaded intact. -/
theorem readlines_clobbers_long_row (r : List Char) (hnl : '\n' ∉ r)
    (hlen : r.length = bufsiz - 1) :
    level_file_readlines (r ++ [ '\n']) = Except.ok [[]] := by
  have hb : bufsiz = 8192 := rfl
  have hf1 : fgetws_read (bufsiz - 1) (r ++ [ '\n']) = (r, [ '\n']) := by
    have h := fgetws_read_full r [ '\n'] hnl
    rwa [hlen] at h
  have hwc1 : wcschr r '\n' = none := (wcschr_none_iff '\n' r).mpr (List.count_eq_zero.mpr hnl)
  have hf2 : fgetws_read (bufsiz + bufsiz - 1) [ '\n'] = ([ '\n'], []) := by
    rw [show bufsiz + bufsiz - 1 = 16382 + 1 from rfl]
    simp [fgetws_read]
  obtain ⟨a, s0, hs⟩ : ∃ a s0, r ++ [ '\n'] = a :: s0 := by
    cases r with
    | nil =>
      exfalso
      rw [hb] at hlen
      simp at hlen
    | cons a r0 => exact ⟨a, r0 ++ [ '\n'], rfl⟩
  unfold level_file_readlines
  rw [hs] at hf1 ⊢
  rw [level_file_readlines_go.eq_def]
  dsimp only
  rw [if_neg (by decide : ¬ (0 : Nat) = int_max)]
  rw [hf1]
  dsimp only
  rw [hwc1]
  dsimp only
  rw [level_file_readlines_go.eq_def]
  dsimp only
  rw [if_neg (by decide : ¬ bufsiz + bufsiz > int_max)]
  rw [hf2]
  dsimp only
  rw [show wcschr [ '\n'] '\n' = some 0 from rfl]
  dsimp only
  rw [level_file_readlines_go.eq_def]
  dsimp only
  rw [if_neg (by decide : ¬ (0 : Nat) + 1 = int_max)]
  rfl

/-- Claim C9 counterexample: a level with exactly one goal marker and exactly
one start marker fails when both lie in the same row, because the goal branch
of the scan ends with continue and start detection is skipped for that row:
level_init reports zero start positions. -/
theorem load_locate_same_row_cex :
    count_occurrences goal_char [[ 'x', '→']] = 1 ∧
    start_occurrences [[ 'x', '→']] = 1 ∧
    level_init (fun r => some (r.length : Int)) [[ 'x', '→']]
      = Except.error (LevelError.startCount 0) := by
  refine ⟨by decide, by decide, by rfl⟩

/-- Claim C9 (amended): for every level whose rows are newline-free, fit
within one read buffer (at most BUFSIZ - 2 characters) and number below the
INT_MAX ceiling, with measurable row widths, exactly one goal-marker
occurrence and exactly one start-marker occurrence, where no row contains
both a goal marker and a start marker, loading the encoded file followed by
the marker scan succeeds and the start glyph no longer appears anywhere in
the resulting grid. -/
theorem load_locate_consumes_start (w : List Char → Option Int)
    (grid : List (List Char))
    (hw : ∀ r ∈ grid, (w r).isSome = true)
    (hgoal : count_occurrences goal_char grid = 1)
    (hstart : start_occurrences grid = 1)
    (hsep : ∀ r ∈ grid, row_has_goal r = true → start_occurrences_row r = 0)
    (hnlf : ∀ r ∈ grid, '\n' ∉ r)
    (hfit : ∀ r ∈ grid, r.length + 2 ≤ bufsiz)
    (hcount : grid.length < int_max) :
    level_file_read (encode_lines grid) = Except.ok grid ∧
    ∃ res, level_init w grid = Except.ok res ∧ start_occurrences res.field = 0 := by
  have hne : grid ≠ [] := by
    rintro rfl
    simp [count_occurrences] at hgoal
  have hload : level_file_read (encode_lines grid) = Except.ok grid :=
    level_file_read_encode grid hfit hnlf hcount hne
  obtain ⟨g1, rg, g2, hge, hrg, hg1, hg2⟩ :=
    sum_map_eq_one_decomp (fun r => r.count goal_char) grid (by
      unfold count_occurrences at hgoal; exact hgoal)
  have hgc : grid.countP row_has_goal = 1 := by
    have hg1c : g1.countP row_has_goal = 0 := List.countP_eq_zero.mpr (fun r hr => by
      simp [row_has_goal, (wcschr_none_iff goal_char r).mpr (hg1 r hr)])
    have hg2c : g2.countP row_has_goal = 0 := List.countP_eq_zero.mpr (fun r hr => by
      simp [row_has_goal, (wcschr_none_iff goal_char r).mpr (hg2 r hr)])
    have hrgc : row_has_goal rg = true := by
      simp only [row_has_goal, Option.isSome_iff_ne_none, ne_eq]
      intro hnone
      rw [wcschr_none_iff] at hnone
      omega
    rw [hge]
    simp [List.countP_cons, hrgc, hg1c, hg2c]
  obtain ⟨s1, rs, s2, hse, hrs, hs1, hs2⟩ :=
    sum_map_eq_one_decomp start_occurrences_row grid (by
      unfold start_occurrences at hstart; exact hstart)
  have hrsmem : rs ∈ grid := by rw [hse]; simp
  have hrs_nogoal : wcschr rs goal_char = none := by
    rcases hg : wcschr rs goal_char with _ | j
    · rfl
    · have hhas : row_has_goal rs = true := by simp [row_has_goal, hg]
      have := hsep rs hrsmem hhas
      omega
  have hrs_fs : (find_start rs).isSome = true := by
    rw [Option.isSome_iff_ne_none]
    intro hnone
    rw [find_start_none_iff] at hnone
    omega
  have hzero_pred : ∀ r, start_occurrences_row r = 0 → row_counts_start r = false := by
    intro r h0
    simp [row_counts_start, (find_start_none_iff r).mpr h0]
  have hsc : grid.countP row_counts_start = 1 := by
    have c1 : s1.countP row_counts_start = 0 := List.countP_eq_zero.mpr (fun r hr => by
      simp [hzero_pred r (hs1 r hr)])
    have c2 : s2.countP row_counts_start = 0 := List.countP_eq_zero.mpr (fun r hr => by
      simp [hzero_pred r (hs2 r hr)])
    have hrsc : row_counts_start rs = true := by
      simp [row_counts_start, hrs_nogoal, hrs_fs]
    rw [hse]
    simp [List.countP_cons, hrsc, c1, c2]
  obtain ⟨st2, hscan, h1, h2, h3⟩ := level_init_scan_ok w grid 0 scan_start hw
  have hgone : st2.goal_count = 1 := by
    rw [h1, hgc]; simp [scan_start]
  have hsone : st2.start_count = 1 := by
    rw [h2, hsc]; simp [scan_start]
  have hlev := level_init_eq_of_scan w grid st2 hscan
  rw [if_neg (by rw [hgone]; simp), if_neg (by rw [hsone]; simp)] at hlev
  have hfield : st2.field = grid.map process_row := by
    rw [h3]; simp [scan_start]
  have hocc0 : start_occurrences (grid.map process_row) = 0 := by
    unfold start_occurrences
    rw [List.map_map]
    apply List.sum_eq_zero
    intro x hx
    obtain ⟨r, hrmem, hxe⟩ := List.mem_map.mp hx
    rw [← hxe]
    show start_occurrences_row (process_row r) = 0
    rw [hse] at hrmem
    rcases List.mem_append.mp hrmem with hr1 | hr2
    · exact process_row_occ_zero r (hs1 r hr1)
    · rcases List.mem_cons.mp hr2 with hreq | hr3
      · subst hreq
        rcases hfs : find_start r with _ | dj
        · rw [find_start_none_iff] at hfs
          omega
        · rcases dj with ⟨d, j⟩
          unfold process_row
          rw [if_neg (by simp [hrs_nogoal]), hfs]
          exact start_row_blank r d j hrs hfs
      · exact process_row_occ_zero r (hs2 r hr3)
  refine ⟨hload, ⟨_, hlev, ?_⟩⟩
  show start_occurrences st2.field = 0
  rw [hfield]
  exact hocc0

/-- Witness for load_locate_consumes_start: a two-row level with the goal in
the first row and a right-facing start marker in the second. -/
theorem load_locate_consumes_start_witness :
    level_file_read (encode_lines [[ 'x'], [ '→']]) = Except.ok [[ 'x'], [ '→']] ∧
    ∃ res, level_init (fun r => some (r.length : Int)) [[ 'x'], [ '→']] = Except.ok res ∧
      start_occurrences res.field = 0 :=
  load_locate_consumes_start (fun r => some (r.length : Int)) [[ 'x'], [ '→']]
    (by decide) (by decide) (by decide) (by decide) (by decide) (by decide) (by decide)
